import Mathlib

/-!
Shallow embedding of `src/data/spatial_gompertz.cpp` (a TMB objective
function for a spatiotemporal Gompertz population model) and verification
of the specification's claims about it.

Modelling conventions:
  * `Type` (TMB's AD scalar) is embedded as `ℝ`.
  * TMB vectors/matrices indexed by loop counters become total functions
    `ℕ → ℝ` (or `ℕ → ℤ → ℝ`); all loop bounds (`n_i`, `n_x`, `n_t`, `n_p`)
    are carried explicitly.
  * The count vector `c_i` may contain the NA sentinel; it is embedded as
    `ℕ → Option ℝ`, with `none` standing for NA (`isNA` in the source).
  * The state-propagation loop writes `log_chat_i(i)` only when
    `t_i(i) == 0` or `t_i(i) > 0`, and when `t_i(i) > 0` it reads
    `log_chat_i(i-1)`.  A read of the out-of-bounds slot `-1` (when
    `i = 0`) and a read of a never-assigned slot (when some `t_i(j) < 0`)
    are both undefined behaviour in the C++; the embedding makes the
    computed entry `none` in exactly those cases, so `isSome` of an entry
    states "this entry was assigned using only in-bounds, previously
    assigned reads".
-/

namespace SpatialGompertz

noncomputable section

/-- All data and parameter inputs of the objective function, mirroring the
`DATA_*` and `PARAMETER_*` declarations of `spatial_gompertz.cpp`.
`opt0` is `Options_vec(0)`, the observation-model selector. -/
structure Inputs where
  opt0 : ℤ
  n_i : ℕ
  n_x : ℕ
  n_t : ℕ
  n_p : ℕ
  x_s : ℕ → ℕ
  c_i : ℕ → Option ℝ
  t_i : ℕ → ℤ
  X_xp : ℕ → ℕ → ℝ
  G0 : ℕ → ℕ → ℝ
  G1 : ℕ → ℕ → ℝ
  G2 : ℕ → ℕ → ℝ
  alpha : ℕ → ℝ
  phi : ℝ
  log_tau_E : ℝ
  log_tau_O : ℝ
  log_kappa : ℝ
  rho : ℝ
  theta_z : ℕ → ℝ
  Epsilon_input : ℕ → ℤ → ℝ
  Omega_input : ℕ → ℝ

/-- The source's local constant `Type pi = 3.141592;` (line 87).  Note this
is a six-decimal truncation, not the mathematical constant `Real.pi`. -/
def pi : ℝ := 3.141592

/-- `Range = sqrt(8) / exp(log_kappa)` (line 88). -/
def Range (log_kappa : ℝ) : ℝ := Real.sqrt 8 / Real.exp log_kappa

/-- `SigmaE = 1 / sqrt(4*pi*exp(2*log_tau_E)*exp(2*log_kappa))` (line 89),
with `pi` the source's constant `3.141592`. -/
def SigmaE (log_tau_E log_kappa : ℝ) : ℝ :=
  1 / Real.sqrt (4 * pi * Real.exp (2 * log_tau_E) * Real.exp (2 * log_kappa))

/-- `SigmaO = 1 / sqrt(4*pi*exp(2*log_tau_O)*exp(2*log_kappa))` (line 90),
with `pi` the source's constant `3.141592`. -/
def SigmaO (log_tau_O log_kappa : ℝ) : ℝ :=
  1 / Real.sqrt (4 * pi * Real.exp (2 * log_tau_O) * Real.exp (2 * log_kappa))

/-- Entrywise precision matrix `Q = kappa4*G0 + 2*kappa2*G1 + G2` with
`kappa2 = exp(2*log_kappa)` and `kappa4 = kappa2*kappa2` (lines 85-91). -/
def Qmat (log_kappa : ℝ) (G0 G1 G2 : ℕ → ℕ → ℝ) : ℕ → ℕ → ℝ :=
  fun r c =>
    Real.exp (2 * log_kappa) * Real.exp (2 * log_kappa) * G0 r c
      + 2 * Real.exp (2 * log_kappa) * G1 r c + G2 r c

/-- The precision matrix of one evaluation: `Qmat` applied to the inputs. -/
def Qm (I : Inputs) : ℕ → ℕ → ℝ := Qmat I.log_kappa I.G0 I.G1 I.G2

/-- The n×n identity, the entrywise form of `G0 = I` in the spec's minimal
test configuration. -/
def idMat : ℕ → ℕ → ℝ := fun r c => if r = c then 1 else 0

/-- The all-zero matrix, the entrywise form of `G1 = G2 = 0`. -/
def zeroMat : ℕ → ℕ → ℝ := fun _ _ => 0

/-- Modelled from the spec: the GMRF Density Evaluator (`density::GMRF` of
the external TMB library, not part of this repository) returns the negative
log-density of a zero-mean Gaussian with precision `Q`:
`−log p(x) = ½·(xᵀQx − log det Q) + (n/2)·log 2π` (spec §4.2). -/
def GMRF_nld (n : ℕ) (Q : ℕ → ℕ → ℝ) (x : ℕ → ℝ) : ℝ :=
  (1 / 2) *
    ((∑ r ∈ Finset.range n, ∑ c ∈ Finset.range n, x r * Q r c * x c)
      - Real.log (Matrix.det (Matrix.of fun i j : Fin n => Q i j))
      + n * Real.log (2 * Real.pi))

/-- Modelled from the spec: R/TMB's `dnorm(x, mean, sd, give_log)` library
density, `logres = -log(sqrt(2π)*sd) - ½((x-mean)/sd)²`, returned as is
when `give_log` and exponentiated otherwise. -/
def dnorm (x mean sd : ℝ) (give_log : Bool) : ℝ :=
  let logres := -Real.log (Real.sqrt (2 * Real.pi) * sd) - (1 / 2) * ((x - mean) / sd) ^ 2
  if give_log then logres else Real.exp logres

/-- `dlognorm` (source lines 10-16): normal density of `log x` with mean
`log_mean` and SD `exp(log_sd)`, divided by `x` (or `- log x` in log
form). -/
def dlognorm (x log_mean log_sd : ℝ) (give_log : Bool) : ℝ :=
  if give_log = false then dnorm (Real.log x) log_mean (Real.exp log_sd) false / x
  else dnorm (Real.log x) log_mean (Real.exp log_sd) true - Real.log x

/-- `d_poisson_lognormal` (source lines 28-39): zero-inflated compound
count density with `log_notencounterprob = -1*exp(log_mean)/exp(log_clustersize)`
and `encounterprob = 1 - exp(log_notencounterprob)`. -/
def d_poisson_lognormal (x log_mean log_sd log_clustersize : ℝ) (give_log : Bool) : ℝ :=
  let log_notencounterprob := -1 * Real.exp log_mean / Real.exp log_clustersize
  let encounterprob := 1 - Real.exp log_notencounterprob
  let R := if x = 0 then log_notencounterprob
    else Real.log encounterprob + dlognorm x (log_mean - Real.log encounterprob) log_sd true
  if give_log then R else Real.exp R

/-- Modelled from the spec: R/TMB's `dpois(x, lambda, give_log=true)`
library log-density, `-lambda + x*log(lambda) - log Γ(x+1)`. -/
def dpois_log (x lambda : ℝ) : ℝ :=
  -lambda + x * Real.log lambda - Real.log (Real.Gamma (x + 1))

/-- The spec's "normal log-density at `x` with location and scale":
`-log(scale·sqrt(2π)) - (x-location)²/(2·scale²)`.  Stated from the spec's
words, for comparison with the source's `dnorm`. -/
def normal_logpdf (x location scale : ℝ) : ℝ :=
  -Real.log (scale * Real.sqrt (2 * Real.pi)) - (x - location) ^ 2 / (2 * scale ^ 2)

/-- `eta_x = X_xp * alpha` (line 125): the covariate row of vertex `x`
times the coefficient vector. -/
def eta_x (I : Inputs) (x : ℕ) : ℝ :=
  ∑ p ∈ Finset.range I.n_p, I.X_xp x p * I.alpha p

/-- `Omega_x(x) = Omega_input(x) / exp(log_tau_O)` (line 127). -/
def Omega_x (I : Inputs) (x : ℕ) : ℝ := I.Omega_input x / Real.exp I.log_tau_O

/-- `Equil_x(x) = (eta_x(x) + Omega_x(x)) / (1 - rho)` (line 128). -/
def Equil_x (I : Inputs) (x : ℕ) : ℝ := (eta_x I x + Omega_x I x) / (1 - I.rho)

/-- `Epsilon_xt(x,t) = Epsilon_input(x,t) / exp(log_tau_E)` (line 130). -/
def Epsilon_xt (I : Inputs) (x : ℕ) (t : ℤ) : ℝ :=
  I.Epsilon_input x t / Real.exp I.log_tau_E

/-- The state-propagation loop body (lines 140-141).  Entry `i` is
`some v` when the source assigns `log_chat_i(i) = v` using only in-bounds
reads of previously assigned entries, and `none` when the source would
read out of bounds (`i = 0` with `t_i(0) > 0` reads slot `-1`), read a
never-assigned entry, or leave entry `i` itself unassigned
(`t_i(i) < 0`, where neither branch fires). -/
def log_chat_i (I : Inputs) : ℕ → Option ℝ
  | 0 =>
    if I.t_i 0 = 0 then
      some (I.phi + Equil_x I (I.x_s 0) + Epsilon_xt I (I.x_s 0) (I.t_i 0))
    else none
  | i + 1 =>
    if I.t_i (i + 1) = 0 then
      some (I.phi + Equil_x I (I.x_s (i + 1)) + Epsilon_xt I (I.x_s (i + 1)) (I.t_i (i + 1)))
    else if 0 < I.t_i (i + 1) then
      (log_chat_i I i).map (fun prev =>
        I.rho * prev + (eta_x I (I.x_s (i + 1)) + Omega_x I (I.x_s (i + 1)))
          + Epsilon_xt I (I.x_s (i + 1)) (I.t_i (i + 1)))
    else none

/-- The per-observation likelihood contribution `jnll_i(i)` (lines
135-146): zero when `c_i(i)` is NA; otherwise the negated log-likelihood
under the selected observation model, reading `log_chat_i(i)` (hence
`none` when that entry is undefined); zero again, without reading
`log_chat_i(i)`, when the selector is outside `{0, 1}` (neither inner
branch fires and the entry keeps its `setZero()` value). -/
def jnll_i (I : Inputs) (i : ℕ) : Option ℝ :=
  match I.c_i i with
  | none => some 0
  | some c =>
    if I.opt0 = 0 then
      (log_chat_i I i).map (fun lc => -(dpois_log c (Real.exp lc)))
    else if I.opt0 = 1 then
      (log_chat_i I i).map (fun lc =>
        -(d_poisson_lognormal c lc (I.theta_z 0) (I.theta_z 1) true))
    else some 0

/-- `jnll_comp(0) += GMRF(Q)(Omega_input)` (line 108). -/
def jnll_comp0 (I : Inputs) : ℝ := GMRF_nld I.n_x (Qm I) I.Omega_input

/-- The loop `for t: jnll_comp(1) += GMRF(Q)(Epsilon_input.col(t))`
(lines 109-114), as the source's left fold starting from `setZero()`. -/
def jnll_comp1 (I : Inputs) : ℝ :=
  (List.range I.n_t).foldl
    (fun acc (t : ℕ) => acc + GMRF_nld I.n_x (Qm I) (fun x => I.Epsilon_input x (t : ℤ))) 0

/-- `jnll_comp(2) = jnll_i.sum()` (line 147), as the source's left fold of
the per-observation contributions; `none` as soon as some contribution
read an undefined `log_chat_i` entry. -/
def jnll_comp2 (I : Inputs) : Option ℝ :=
  (List.range I.n_i).foldl
    (fun acc i => acc.bind (fun a => (jnll_i I i).map (fun v => a + v))) (some 0)

/-- The three-component breakdown vector `jnll_comp` (lines 81, 108-147). -/
def jnll_comp (I : Inputs) : Option (ℝ × ℝ × ℝ) :=
  (jnll_comp2 I).map (fun c2 => (jnll_comp0 I, jnll_comp1 I, c2))

/-- `jnll = jnll_comp.sum()` (line 148), the returned scalar objective. -/
def jnll (I : Inputs) : Option ℝ :=
  (jnll_comp I).map (fun c => c.1 + c.2.1 + c.2.2)

/-- A concrete two-observation input (one vertex, times 0 and 1, NA counts,
`phi = 1`, `rho = 2`, all fields zero) used to instantiate theorems. -/
def I1 : Inputs where
  opt0 := 1
  n_i := 2
  n_x := 1
  n_t := 2
  n_p := 1
  x_s := fun _ => 0
  c_i := fun _ => none
  t_i := fun i => (i : ℤ)
  X_xp := fun _ _ => 0
  G0 := idMat
  G1 := zeroMat
  G2 := zeroMat
  alpha := fun _ => 0
  phi := 1
  log_tau_E := 0
  log_tau_O := 0
  log_kappa := 0
  rho := 2
  theta_z := fun _ => 0
  Epsilon_input := fun _ _ => 0
  Omega_input := fun _ => 0

/-- A concrete input with an unknown observation-model flag
(`Options_vec(0) = 2`, outside `{0, 1}`) and two observed zero counts. -/
def I6 : Inputs where
  opt0 := 2
  n_i := 2
  n_x := 1
  n_t := 1
  n_p := 1
  x_s := fun _ => 0
  c_i := fun _ => some 0
  t_i := fun i => (i : ℤ)
  X_xp := fun _ _ => 0
  G0 := idMat
  G1 := zeroMat
  G2 := zeroMat
  alpha := fun _ => 0
  phi := 1
  log_tau_E := 0
  log_tau_O := 0
  log_kappa := 0
  rho := 0
  theta_z := fun _ => 0
  Epsilon_input := fun _ _ => 0
  Omega_input := fun _ => 0

theorem foldl_add_range (f : ℕ → ℝ) :
    ∀ (n : ℕ) (a : ℝ),
      (List.range n).foldl (fun acc t => acc + f t) a = a + ∑ t ∈ Finset.range n, f t := by
  intro n
  induction n with
  | zero => intro a; simp
  | succ m ih =>
    intro a
    rw [List.range_succ, List.foldl_append]
    simp only [List.foldl_cons, List.foldl_nil]
    rw [ih, Finset.sum_range_succ]
    ring

theorem foldl_option_range (g : ℕ → Option ℝ) (v : ℕ → ℝ) :
    ∀ (n : ℕ) (a : ℝ), (∀ i < n, g i = some (v i)) →
      (List.range n).foldl (fun acc i => acc.bind (fun x => (g i).map (fun w => x + w)))
          (some a)
        = some (a + ∑ i ∈ Finset.range n, v i) := by
  intro n
  induction n with
  | zero => intro a _; simp
  | succ m ih =>
    intro a h
    rw [List.range_succ, List.foldl_append]
    rw [ih a (fun i hi => h i (Nat.lt_succ_of_lt hi))]
    simp only [List.foldl_cons, List.foldl_nil, Option.bind_eq_bind, Option.some_bind]
    rw [h m (Nat.lt_succ_self m)]
    simp [Finset.sum_range_succ, add_assoc]

theorem dnorm_log_eq_normal_logpdf (y loc s : ℝ) :
    dnorm y loc s true = normal_logpdf y loc s := by
  simp only [dnorm, normal_logpdf, if_true]
  rw [mul_comm (Real.sqrt (2 * Real.pi)) s]
  congr 1
  rw [div_pow]
  ring

/-- C2: Precision Builder.  For every `log_kappa` and basis matrices
`G0, G1, G2`, the built matrix is `Q = κ⁴·G0 + 2κ²·G1 + G2` with
`κ = exp(log_kappa)`; and when `G0` is the identity and `G1 = G2 = 0`,
`Q = κ⁴·I` exactly (entrywise). -/
theorem precision_builder_Q (log_kappa : ℝ) (G0 G1 G2 : ℕ → ℕ → ℝ) (r c : ℕ) :
    Qmat log_kappa G0 G1 G2 r c
      = Real.exp log_kappa ^ 4 * G0 r c + 2 * Real.exp log_kappa ^ 2 * G1 r c + G2 r c
    ∧ Qmat log_kappa idMat zeroMat zeroMat r c = Real.exp log_kappa ^ 4 * idMat r c := by
  have h2 : Real.exp (2 * log_kappa) = Real.exp log_kappa ^ 2 := by
    rw [two_mul, Real.exp_add, sq]
  constructor
  · simp only [Qmat, h2]; ring
  · simp only [Qmat, idMat, zeroMat, h2]; ring

/-- C8 counterexample: at `log_tau_E = 0`, `log_kappa = 0`, the source's
`SigmaE` differs from the claimed formula evaluated with the exact
mathematical constant π, because the source sets `pi = 3.141592`
(a strict truncation of π). -/
theorem sigmaE_not_exact_pi :
    SigmaE 0 0 ≠ 1 / Real.sqrt (4 * Real.pi * Real.exp (2 * 0) * Real.exp (2 * 0)) := by
  intro h
  simp only [SigmaE, mul_zero, Real.exp_zero, mul_one] at h
  have hpilt : (4 : ℝ) * pi < 4 * Real.pi := by
    have hb := Real.pi_gt_d6
    rw [pi]
    nlinarith
  have hltsqrt : Real.sqrt (4 * pi) < Real.sqrt (4 * Real.pi) :=
    Real.sqrt_lt_sqrt (by rw [pi]; norm_num) hpilt
  have hpos : 0 < Real.sqrt (4 * pi) := Real.sqrt_pos.mpr (by rw [pi]; norm_num)
  have hlt : 1 / Real.sqrt (4 * Real.pi) < 1 / Real.sqrt (4 * pi) :=
    one_div_lt_one_div_of_lt hpos hltsqrt
  rw [h] at hlt
  exact lt_irrefl _ hlt

/-- C8 (amended): the derived summary statistics are pure functions of
`(log_kappa, log_tau_E, log_tau_O)`: `Range = sqrt(8)/κ`,
`SigmaE = 1/sqrt(4·pi·exp(2·log_tau_E)·κ²)` and
`SigmaO = 1/sqrt(4·pi·exp(2·log_tau_O)·κ²)` with `κ = exp(log_kappa)` —
where `pi` is the source's constant `3.141592`, not the exact mathematical
constant. -/
theorem summary_stats_formulas (log_tau_E log_tau_O log_kappa : ℝ) :
    Range log_kappa = Real.sqrt 8 / Real.exp log_kappa
    ∧ SigmaE log_tau_E log_kappa
        = 1 / Real.sqrt (4 * pi * Real.exp (2 * log_tau_E) * Real.exp log_kappa ^ 2)
    ∧ SigmaO log_tau_O log_kappa
        = 1 / Real.sqrt (4 * pi * Real.exp (2 * log_tau_O) * Real.exp log_kappa ^ 2) := by
  have h2 : Real.exp (2 * log_kappa) = Real.exp log_kappa ^ 2 := by
    rw [two_mul, Real.exp_add, sq]
  exact ⟨rfl, by rw [SigmaE, h2], by rw [SigmaO, h2]⟩

/-- C7: Field Scaler.  `Omega_x(x) = Omega_input(x)/exp(log_tau_O)`,
`Epsilon_xt(x,t) = Epsilon_input(x,t)/exp(log_tau_E)`, `eta_x` is the
covariate row times the coefficient vector, and, for `rho ≠ 1`,
`Equil_x(x) = (eta_x(x)+Omega_x(x))/(1-rho)`; the final conjunct checks
that this value is the genuine equilibrium (fixed point) of the AR(1)
recursion, which is where `rho ≠ 1` is needed. -/
theorem field_scaler_formulas (I : Inputs) (x : ℕ) (t : ℤ) (h : I.rho ≠ 1) :
    Omega_x I x = I.Omega_input x / Real.exp I.log_tau_O
    ∧ Epsilon_xt I x t = I.Epsilon_input x t / Real.exp I.log_tau_E
    ∧ eta_x I x = ∑ p ∈ Finset.range I.n_p, I.X_xp x p * I.alpha p
    ∧ Equil_x I x = (eta_x I x + Omega_x I x) / (1 - I.rho)
    ∧ I.rho * Equil_x I x + (eta_x I x + Omega_x I x) = Equil_x I x := by
  refine ⟨rfl, rfl, rfl, rfl, ?_⟩
  have h1 : (1 : ℝ) - I.rho ≠ 0 := sub_ne_zero.mpr (Ne.symm h)
  rw [Equil_x]
  field_simp
  ring

/-- Witness for C7 at the concrete input `I1` (`rho = 2`). -/
theorem field_scaler_formulas_witness :
    I1.rho * Equil_x I1 0 + (eta_x I1 0 + Omega_x I1 0) = Equil_x I1 0 :=
  (field_scaler_formulas I1 0 0 (by norm_num [I1])).2.2.2.2

/-- C1: State Propagator recursion.  For observation `i`, if `t_i(i) = 0`
then `log_chat_i(i) = phi + Equil_x(x_s(i)) + Epsilon_xt(x_s(i), 0)`; if
`t_i(i) > 0` and `i` has a predecessor in the array whose entry was
computed to be `v`, then
`log_chat_i(i) = rho·v + (eta_x(x_s(i)) + Omega_x(x_s(i))) + Epsilon_xt(x_s(i), t_i(i))`,
where the predecessor is positional (slot `i−1`), not keyed by site. -/
theorem state_propagator_recursion (I : Inputs) (i : ℕ) :
    (I.t_i i = 0 →
      log_chat_i I i = some (I.phi + Equil_x I (I.x_s i) + Epsilon_xt I (I.x_s i) 0))
    ∧ (0 < I.t_i i → 0 < i → ∀ v, log_chat_i I (i - 1) = some v →
      log_chat_i I i = some (I.rho * v + (eta_x I (I.x_s i) + Omega_x I (I.x_s i))
        + Epsilon_xt I (I.x_s i) (I.t_i i))) := by
  constructor
  · intro h
    cases i with
    | zero => simp [log_chat_i, h]
    | succ n => simp [log_chat_i, h]
  · intro ht hi v hv
    cases i with
    | zero => exact absurd hi (lt_irrefl 0)
    | succ n =>
      have hne : I.t_i (n + 1) ≠ 0 := ne_of_gt ht
      have hv2 : log_chat_i I n = some v := hv
      simp [log_chat_i, hne, ht, hv2]

/-- Witness for C1 at `I1`: observation 1 has time 1 > 0 and chains onto
observation 0. -/
theorem state_propagator_recursion_witness :
    log_chat_i I1 1
      = some (I1.rho * (I1.phi + Equil_x I1 (I1.x_s 0) + Epsilon_xt I1 (I1.x_s 0) 0)
        + (eta_x I1 (I1.x_s 1) + Omega_x I1 (I1.x_s 1)) + Epsilon_xt I1 (I1.x_s 1) (I1.t_i 1)) :=
  (state_propagator_recursion I1 1).2 (by simp [I1]) Nat.one_pos _
    ((state_propagator_recursion I1 0).1 (by simp [I1]))

/-- C10: safety of the state-propagation loop.  Every `log_chat_i` entry
is assigned using only in-bounds reads of previously assigned slots
(`isSome` in the embedding, which maps the out-of-bounds read
`log_chat_i(-1)` and any read or report of a never-assigned entry to
`none`) if and only if all time indices are non-negative and the first
observation, when one exists, has time index 0. -/
theorem log_chat_safety_iff (I : Inputs) :
    (∀ i < I.n_i, (log_chat_i I i).isSome = true) ↔
      ((∀ i < I.n_i, 0 ≤ I.t_i i) ∧ (0 < I.n_i → I.t_i 0 = 0)) := by
  constructor
  · intro h
    refine ⟨?_, ?_⟩
    · intro i hi
      by_contra hneg
      push_neg at hneg
      have hs := h i hi
      have hnone : log_chat_i I i = none := by
        cases i with
        | zero =>
          have h0 : I.t_i 0 ≠ 0 := ne_of_lt hneg
          simp [log_chat_i, h0]
        | succ n =>
          have h0 : I.t_i (n + 1) ≠ 0 := ne_of_lt hneg
          have h1 : ¬0 < I.t_i (n + 1) := not_lt.mpr (le_of_lt hneg)
          simp [log_chat_i, h0, h1]
      rw [hnone] at hs
      simp at hs
    · intro hn
      have hs := h 0 hn
      by_contra h0
      have hnone : log_chat_i I 0 = none := by simp [log_chat_i, h0]
      rw [hnone] at hs
      simp at hs
  · rintro ⟨hnn, h0⟩
    intro i
    induction i with
    | zero =>
      intro hi
      simp [log_chat_i, h0 hi]
    | succ n ih =>
      intro hi
      have hn : n < I.n_i := Nat.lt_of_succ_lt hi
      have hprev := ih hn
      have ht : 0 ≤ I.t_i (n + 1) := hnn (n + 1) hi
      rcases eq_or_lt_of_le ht with he | hl
      · simp [log_chat_i, ← he]
      · have hne : I.t_i (n + 1) ≠ 0 := ne_of_gt hl
        obtain ⟨v, hv⟩ := Option.isSome_iff_exists.mp hprev
        simp [log_chat_i, hne, hl, hv]

/-- Witness for C10 at `I1`: its times are `0, 1`, so the right-hand side
holds and entry 1 is safely assigned. -/
theorem log_chat_safety_iff_witness : (log_chat_i I1 1).isSome = true :=
  (log_chat_safety_iff I1).mpr
    ⟨fun i _ => by simp [I1], fun _ => by simp [I1]⟩ 1 (by norm_num [I1])

/-- C5: missing-data handling.  An observation whose count is the NA
sentinel contributes exactly zero to the likelihood (`jnll_i(i) = some 0`,
distinguished in the embedding from a recorded zero count
`c_i(i) = some 0`), while its `log_chat_i` entry is still computed by the
recursion: the successor, when its time index is positive, chains onto
exactly the value stored at slot `i`, unchanged. -/
theorem missing_data_handling (I : Inputs) (i : ℕ) (h : I.c_i i = none) :
    jnll_i I i = some 0
    ∧ (0 < I.t_i (i + 1) →
        log_chat_i I (i + 1) = (log_chat_i I i).map (fun prev =>
          I.rho * prev + (eta_x I (I.x_s (i + 1)) + Omega_x I (I.x_s (i + 1)))
            + Epsilon_xt I (I.x_s (i + 1)) (I.t_i (i + 1)))) := by
  constructor
  · simp [jnll_i, h]
  · intro ht
    have hne : I.t_i (i + 1) ≠ 0 := ne_of_gt ht
    simp [log_chat_i, hne, ht]

/-- Witness for C5 at `I1`, whose counts are all NA. -/
theorem missing_data_handling_witness : jnll_i I1 0 = some 0 :=
  (missing_data_handling I1 0 rfl).1

/-- C3: Poisson-lognormal observation likelihood.  With encounter
probability `q = 1 − exp(−exp(m)/exp(k))`: a zero count yields
log-likelihood `log(1−q)`, equivalently `−exp(m)/exp(k)`; a positive
count yields `log(q)` plus the log-lognormal density at `x` with location
`m − log(q)` and scale `exp(s)`, the latter being the normal log-density
of `log x` at that location and scale, minus `log x`. -/
theorem poisson_lognormal_loglik (x m s k : ℝ) :
    (x = 0 →
      d_poisson_lognormal x m s k true
          = Real.log (1 - (1 - Real.exp (-Real.exp m / Real.exp k)))
      ∧ d_poisson_lognormal x m s k true = -Real.exp m / Real.exp k)
    ∧ (0 < x →
      d_poisson_lognormal x m s k true
        = Real.log (1 - Real.exp (-Real.exp m / Real.exp k))
          + (normal_logpdf (Real.log x)
              (m - Real.log (1 - Real.exp (-Real.exp m / Real.exp k))) (Real.exp s)
            - Real.log x)) := by
  have hneg : -1 * Real.exp m / Real.exp k = -Real.exp m / Real.exp k := by ring
  constructor
  · intro hx
    constructor
    · simp only [d_poisson_lognormal, if_pos hx, if_true, hneg]
      rw [show (1 : ℝ) - (1 - Real.exp (-Real.exp m / Real.exp k))
            = Real.exp (-Real.exp m / Real.exp k) by ring]
      rw [Real.log_exp]
    · simp only [d_poisson_lognormal, if_pos hx, if_true, hneg]
  · intro hx
    have hxne : x ≠ 0 := ne_of_gt hx
    simp only [d_poisson_lognormal, dlognorm, if_neg hxne, if_true, hneg,
      Bool.true_eq_false, if_false]
    rw [dnorm_log_eq_normal_logpdf]

/-- Witness for C3: with all parameters zero and a zero count, the
log-likelihood is `−exp(0)/exp(0) = −1`. -/
theorem poisson_lognormal_loglik_witness : d_poisson_lognormal 0 0 0 0 true = -1 := by
  have h := ((poisson_lognormal_loglik 0 0 0 0).1 rfl).2
  simpa [Real.exp_zero] using h

/-- C6 counterexample: with model-selection flag 2 (outside `{0, 1}`) and
a recorded zero count, the evaluation does not fail: the observation
silently contributes exactly zero, and the whole objective still returns
a value. -/
theorem unknown_flag_cex : jnll_i I6 0 = some 0 ∧ (jnll I6).isSome = true := by
  have hobs : ∀ i < I6.n_i, jnll_i I6 i = some ((fun _ => (0 : ℝ)) i) := by
    intro i _
    simp [jnll_i, I6]
  have hc2 : jnll_comp2 I6 = some 0 := by
    rw [jnll_comp2, foldl_option_range (jnll_i I6) (fun _ => 0) I6.n_i 0 hobs]
    simp
  refine ⟨hobs 0 (by norm_num [I6]), ?_⟩
  simp [jnll, jnll_comp, hc2]

/-- C6 (amended): for every input whose model-selection flag lies outside
the known set `{0, 1}`, no fail-fast occurs: every observation's
likelihood contribution is exactly, and silently, zero (the source code
performs no validation of the flag or of the index arrays). -/
theorem unknown_flag_silent_zero (I : Inputs) (i : ℕ)
    (h0 : I.opt0 ≠ 0) (h1 : I.opt0 ≠ 1) : jnll_i I i = some 0 := by
  unfold jnll_i
  cases hc : I.c_i i with
  | none => rfl
  | some c => simp [h0, h1]

/-- Witness for C6's amended claim at `I6` (flag 2). -/
theorem unknown_flag_silent_zero_witness : jnll_i I6 1 = some 0 :=
  unknown_flag_silent_zero I6 1 (by norm_num [I6]) (by norm_num [I6])

/-- C4: Objective Aggregator.  When every observation's likelihood
contribution is defined, the component breakdown is exactly
`(GMRF-nld of Omega_input under Q, Σ over time slices of the GMRF-nld of
the slice of Epsilon_input under the same Q, Σ over observations of the
negated observation log-likelihood)`, and the returned scalar is exactly
the sum of those three components. -/
theorem objective_aggregation (I : Inputs) (v : ℕ → ℝ)
    (h : ∀ i < I.n_i, jnll_i I i = some (v i)) :
    jnll_comp I = some (GMRF_nld I.n_x (Qm I) I.Omega_input,
        ∑ t ∈ Finset.range I.n_t, GMRF_nld I.n_x (Qm I) (fun x => I.Epsilon_input x (t : ℤ)),
        ∑ i ∈ Finset.range I.n_i, v i)
    ∧ jnll I = some (GMRF_nld I.n_x (Qm I) I.Omega_input
        + (∑ t ∈ Finset.range I.n_t, GMRF_nld I.n_x (Qm I) (fun x => I.Epsilon_input x (t : ℤ)))
        + ∑ i ∈ Finset.range I.n_i, v i) := by
  have hc2 : jnll_comp2 I = some (∑ i ∈ Finset.range I.n_i, v i) := by
    rw [jnll_comp2, foldl_option_range (jnll_i I) v I.n_i 0 h, zero_add]
  have hc1 : jnll_comp1 I
      = ∑ t ∈ Finset.range I.n_t, GMRF_nld I.n_x (Qm I) (fun x => I.Epsilon_input x (t : ℤ)) := by
    rw [jnll_comp1, foldl_add_range
      (fun t => GMRF_nld I.n_x (Qm I) (fun x => I.Epsilon_input x (t : ℤ))) I.n_t 0, zero_add]
  constructor
  · simp [jnll_comp, hc2, jnll_comp0, hc1]
  · simp [jnll, jnll_comp, hc2, jnll_comp0, hc1]

/-- Witness for C4 at `I6`, where every observation contributes zero. -/
theorem objective_aggregation_witness :
    jnll I6 = some (GMRF_nld I6.n_x (Qm I6) I6.Omega_input
      + (∑ t ∈ Finset.range I6.n_t, GMRF_nld I6.n_x (Qm I6) (fun x => I6.Epsilon_input x (t : ℤ)))
      + ∑ _j ∈ Finset.range I6.n_i, (0 : ℝ)) :=
  (objective_aggregation I6 (fun _ => 0) (fun i _ => by simp [jnll_i, I6])).2

end

end SpatialGompertz
